import Mathlib

/-!
Verification of the obsidiana CLI (src/obsidiana/_cli.py) against its design
specification.

The repository ships a single thin CLI module; the vault/note core it imports
(`obsidiana.vault`) is not part of the shown source, so the note model and the
note parser are modelled from the specification (each such definition says so
in its doc comment).  The four reporting commands (`validate_frontmatter`,
`todo`, `tags`, `anki`) are embedded directly from the CLI source as pure
functions over the sequence of notes a vault traversal yields; console
rendering (rich panels/tables/trees) is out of scope and the embeddings
return the data those renderers receive.

Machine-level conventions of the embedding:
* Python strings compare lexicographically by code point; `strLe` below is
  that order, made executable over the character list of a `String`.
* Python's `x in s` substring test is embedded as `List.IsInfix` (`<:+:`) on
  character lists.
* A Python `set` of notes (notes hash/compare by their `subpath`, per the
  spec) is embedded by deduplicating the subpaths of the collected notes.
-/

namespace Obsidiana

/-- Modelled from the spec: the `Note` entity of the missing `obsidiana.vault`
module (spec section 3).  `subpath` is the identity of the note relative to the
vault root; `frontmatter` is the parsed metadata mapping (the claims inspect it
only opaquely, so values are kept as strings); `tags` is the set of hashtag
strings found in the note (a set, held as a list); `lines` is the ordered body
line sequence; `awaiting_triage` is the note's derived triage predicate, whose
exact frontmatter condition lives in the missing module, so it is carried as
the boolean the CLI observes. -/
structure Note where
  subpath : String
  frontmatter : List (String × String)
  tags : List String
  lines : List String
  awaiting_triage : Bool
deriving DecidableEq

/-! ### String order (Python code-point lexicographic comparison) -/

/-- Lexicographic comparison of character lists by code point, the order
Python's `sorted` uses on strings. -/
def lexLe : List Char → List Char → Bool
  | [], _ => true
  | _ :: _, [] => false
  | a :: as, b :: bs =>
    if a.toNat < b.toNat then true
    else if b.toNat < a.toNat then false
    else lexLe as bs

/-- The order in which Python's `sorted` lists strings. -/
def strLe (a b : String) : Prop := lexLe a.toList b.toList = true

instance : DecidableRel strLe := fun a b =>
  instDecidableEqBool (lexLe a.toList b.toList) true

instance : IsTotal String strLe :=
  ⟨by
    intro a b
    show lexLe a.toList b.toList = true ∨ lexLe b.toList a.toList = true
    generalize a.toList = x
    generalize b.toList = y
    induction x generalizing y with
    | nil => exact Or.inl rfl
    | cons c cs ih =>
      cases y with
      | nil => exact Or.inr rfl
      | cons d ds =>
        rcases Nat.lt_trichotomy c.toNat d.toNat with h | h | h
        · exact Or.inl (by simp [lexLe, h])
        · rcases ih ds with h' | h'
          · exact Or.inl (by simp [lexLe, h, h'])
          · exact Or.inr (by simp [lexLe, h.symm, h'])
        · exact Or.inr (by simp [lexLe, h])⟩

instance : IsTrans String strLe :=
  ⟨by
    intro a b c
    show lexLe a.toList b.toList = true → lexLe b.toList c.toList = true →
      lexLe a.toList c.toList = true
    generalize a.toList = x
    generalize b.toList = y
    generalize c.toList = z
    induction x generalizing y z with
    | nil => intro _ _; rfl
    | cons p ps ih =>
      intro hxy hyz
      cases y with
      | nil => simp [lexLe] at hxy
      | cons q qs =>
        cases z with
        | nil => simp [lexLe] at hyz
        | cons r rs =>
          simp only [lexLe] at hxy hyz ⊢
          rcases Nat.lt_trichotomy p.toNat q.toNat with h₁ | h₁ | h₁
          · rcases Nat.lt_trichotomy q.toNat r.toNat with h₂ | h₂ | h₂
            · rw [if_pos (by omega)]
            · rw [if_pos (by omega)]
            · rw [if_neg (by omega), if_pos h₂] at hyz
              simp at hyz
          · rcases Nat.lt_trichotomy q.toNat r.toNat with h₂ | h₂ | h₂
            · rw [if_pos (by omega)]
            · rw [if_neg (by omega), if_neg (by omega)] at hxy
              rw [if_neg (by omega), if_neg (by omega)] at hyz
              rw [if_neg (by omega), if_neg (by omega)]
              exact ih qs rs hxy hyz
            · rw [if_neg (by omega), if_pos h₂] at hyz
              simp at hyz
          · rw [if_neg (by omega), if_pos h₁] at hxy
            simp at hxy⟩

instance : IsAntisymm String strLe :=
  ⟨by
    intro a b
    show lexLe a.toList b.toList = true → lexLe b.toList a.toList = true → a = b
    intro hab hba
    rw [← String.toList_inj]
    revert hab hba
    generalize a.toList = x
    generalize b.toList = y
    induction x generalizing y with
    | nil =>
      intro _ hba
      cases y with
      | nil => rfl
      | cons d ds => simp [lexLe] at hba
    | cons c cs ih =>
      intro hab hba
      cases y with
      | nil => simp [lexLe] at hab
      | cons d ds =>
        simp only [lexLe] at hab hba
        rcases Nat.lt_trichotomy c.toNat d.toNat with h | h | h
        · rw [if_neg (by omega), if_pos h] at hba
          simp at hba
        · have hcd : c = d := Char.ext (UInt32.toNat.inj h)
          rw [if_neg (by omega), if_neg (by omega)] at hab
          rw [if_neg (by omega), if_neg (by omega)] at hba
          rw [hcd, ih ds hab hba]
        · rw [if_neg (by omega), if_pos h] at hab
          simp at hab⟩

/-! ### The `anki` command (src/obsidiana/_cli.py, `anki`) -/

/-- Embedding of the `anki` command: the subpaths the command prints, one per
note carrying the exact tag `learn/anki`, in traversal order. -/
def anki (notes : List Note) : List String :=
  (notes.filter fun n => decide ("learn/anki" ∈ n.tags)).map Note.subpath

/-! ### The `todo` command (src/obsidiana/_cli.py, `todo`) -/

/-- The tag test of the `todo` command's whole-note collection:
`"todo" in note.tags or "todo/now" in note.tags`. -/
def hasTodoTag (n : Note) : Bool :=
  decide ("todo" ∈ n.tags) || decide ("todo/now" ∈ n.tags)

/-- The subpaths of the Python set `whole_note_todo` (notes compare by
`subpath`, so set membership deduplicates subpaths). -/
def wholeNoteTodoSubpaths (notes : List Note) : List String :=
  ((notes.filter hasTodoTag).map Note.subpath).dedup

/-- The lines of the "Notes with #todo tags" panel body:
`sorted(note.subpath() for note in whole_note_todo)`. -/
def todoPanelLines (notes : List Note) : List String :=
  List.insertionSort strLe (wholeNoteTodoSubpaths notes)

/-- The full panel body string, `"\n".join(sorted(...))`. -/
def todoPanel (notes : List Note) : String :=
  String.intercalate "\n" (todoPanelLines notes)

/-- The task lines of one note:
`[line for line in note.lines() if "#todo" in line]` (Python's `in` on
strings is substring containment). -/
def taskLines (n : Note) : List String :=
  n.lines.filter fun l => decide ("#todo".toList <:+: l.toList)

/-- Embedding of the Tasks table of the `todo` command: one row
`(subpath, task lines)` per note whose task-line list is non-empty, in
traversal order. -/
def tasksTable (notes : List Note) : List (String × List String) :=
  notes.filterMap fun n =>
    if (taskLines n).isEmpty then none else some (n.subpath, taskLines n)

/-! ### The `tags` command (src/obsidiana/_cli.py, `tags`) -/

/-- All tag occurrences fed to the `Counter` (`tags.update(note.tags)` for
each note; each note contributes its tag set once). -/
def tagOccurrences (notes : List Note) : List String :=
  notes.flatMap Note.tags

/-- Row order of `Counter.most_common()`: non-increasing count. -/
def countGE (a b : String × Nat) : Prop := b.2 ≤ a.2

instance : DecidableRel countGE := fun a b => Nat.decLe b.2 a.2

instance : IsTotal (String × Nat) countGE := ⟨fun a b => Nat.le_total b.2 a.2⟩

instance : IsTrans (String × Nat) countGE :=
  ⟨fun _ _ _ hab hbc => Nat.le_trans hbc hab⟩

/-- The `(tag, count)` pairs held by the `Counter`, one per distinct tag.
(The `Counter`'s insertion-order bookkeeping is modelled up to the order of
the pairs, which the subsequent sort canonicalises up to ties.) -/
def tagRows (notes : List Note) : List (String × Nat) :=
  (tagOccurrences notes).dedup.map fun t => (t, (tagOccurrences notes).count t)

/-- Embedding of the rows of the `tags` command's table:
`Counter.most_common()`, i.e. the rows sorted by count, largest first. -/
def tagsTableRows (notes : List Note) : List (String × Nat) :=
  List.insertionSort countGE (tagRows notes)

/-! ### The `validate_frontmatter` command (src/obsidiana/_cli.py) -/

/-- A schema-validation error as the CLI observes it from the external
jsonschema collaborator: the instance path the error occurred at (string keys
of the frontmatter mapping), the failed schema keyword, and whether the
offending instance value is an object (the inputs of the relevance key). -/
structure VError where
  path : List String
  keyword : String
  instanceIsObject : Bool
deriving DecidableEq

/-- Keywords jsonschema's relevance heuristic treats as weak. -/
def WEAK_MATCHES : List String := ["anyOf", "oneOf"]

/-- Keywords jsonschema's relevance heuristic treats as strong (none by
default). -/
def STRONG_MATCHES : List String := []

/-- Modelled from the spec: the relevance sort key of the external jsonschema
collaborator (`jsonschema.exceptions.relevance`, imported by the CLI but not
part of this repository).  Per the spec, "errors on more specific / deeper
schema paths outrank generic ones": the leading component is the negated
instance-path depth, followed by the weak/strong keyword components and the
is-an-object tiebreak, compared lexicographically as Python compares the key
tuples. -/
def relevance (e : VError) : Lex (Int × Lex (Bool × Lex (Bool × Bool))) :=
  toLex (-(e.path.length : Int),
    toLex (decide (e.keyword ∉ WEAK_MATCHES),
      toLex (decide (e.keyword ∈ STRONG_MATCHES), !e.instanceIsObject)))

/-- The order `sorted(errors, key=relevance)` sorts by. -/
def relLE (a b : VError) : Prop := relevance a ≤ relevance b

instance : DecidableRel relLE := fun a b =>
  inferInstanceAs (Decidable (relevance a ≤ relevance b))

instance : IsTotal VError relLE := ⟨fun a b => le_total (relevance a) (relevance b)⟩

instance : IsTrans VError relLE := ⟨fun _ _ _ hab hbc => le_trans hab hbc⟩

/-- `sorted(validator.iter_errors(note.frontmatter), key=relevance)`. -/
def sortErrors (errors : List VError) : List VError :=
  List.insertionSort relLE errors

/-- How the `validate_frontmatter` command can abort before reporting:
`vault.child("schema.json").read_text()` raising because the file is absent,
or `Validator.check_schema(schema)` raising because the schema is invalid. -/
inductive VfFailure
  | schemaNotFound
  | invalidSchema
deriving DecidableEq

/-- The body of the note loop of `validate_frontmatter`: a triage-pending note
is skipped, a note with no validation errors is skipped, and any other note
contributes the tree entry `(subpath, sorted errors)`. -/
def noteReportEntry {Schema : Type}
    (iter_errors : Schema → List (String × String) → List VError)
    (schema : Schema) (note : Note) : Option (String × List VError) :=
  if note.awaiting_triage then none
  else if (sortErrors (iter_errors schema note.frontmatter)).isEmpty then none
  else some (note.subpath, sortErrors (iter_errors schema note.frontmatter))

/-- Embedding of the `validate_frontmatter` command.  Schema parsing and
validation are the external jsonschema collaborator, so the schema document
type, the `check_schema` check and the `iter_errors` enumeration are
parameters; `schemaFile` is the parsed content of `root/schema.json` when that
file exists.  The result is the list of invalid-note tree entries, or the
failure the command aborted with. -/
def validate_frontmatter {Schema : Type}
    (check_schema : Schema → Bool)
    (iter_errors : Schema → List (String × String) → List VError)
    (schemaFile : Option Schema) (notes : List Note) :
    Except VfFailure (List (String × List VError)) :=
  match schemaFile with
  | none => Except.error VfFailure.schemaNotFound
  | some schema =>
    if check_schema schema then
      Except.ok (notes.filterMap (noteReportEntry iter_errors schema))
    else
      Except.error VfFailure.invalidSchema

/-! ### The note parser (spec-modelled; the `obsidiana.vault` module is not
under src/) -/

/-- Splitting of raw text into physical lines (Python's line splitting on
newline characters), executable over the character list. -/
def splitLinesAux : List Char → List Char → List String
  | [], acc => [String.mk acc.reverse]
  | c :: rest, acc =>
    if c = '\n' then String.mk acc.reverse :: splitLinesAux rest []
    else splitLinesAux rest (c :: acc)

/-- The physical lines of a raw note text. -/
def splitLines (text : String) : List String :=
  splitLinesAux text.toList []

/-- Modelled from the spec: search for the closing frontmatter marker line.
Returns the lines strictly before the first `---` line, and the lines after
it, or `none` when the block is unterminated. -/
def splitAtMarker : List String → Option (List String × List String)
  | [] => none
  | l :: rest =>
    if l = "---" then some ([], rest)
    else
      match splitAtMarker rest with
      | none => none
      | some (block, body) => some (l :: block, body)

/-- Modelled from the spec: frontmatter block extraction (spec section 4.1).
If the text starts with the fixed marker line `---` and a matching marker line
follows, the enclosed lines are the frontmatter block and everything after the
closing marker is the body; otherwise there is no block and the entire text is
body. -/
def splitFrontmatter (text : String) : Option (List String) × List String :=
  let ls := splitLines text
  match ls with
  | [] => (none, ls)
  | first :: rest =>
    if first = "---" then
      match splitAtMarker rest with
      | some (block, body) => (some block, body)
      | none => (none, ls)
    else (none, ls)

/-- Modelled from the spec: split one frontmatter line at the first `: `
into key and value characters; `none` when the line is not of that shape. -/
def breakColon : List Char → Option (List Char × List Char)
  | [] => none
  | ':' :: ' ' :: rest => some ([], rest)
  | c :: rest =>
    match breakColon rest with
    | none => none
    | some (k, v) => some (c :: k, v)

/-- Modelled from the spec: parse one `key: value` line of a frontmatter
block. -/
def parseMappingLine (l : String) : Option (String × String) :=
  match breakColon l.toList with
  | none => none
  | some (k, v) => some (String.mk k, String.mk v)

/-- Modelled from the spec: parse a frontmatter block into a mapping, failing
when any line is not a `key: value` line. -/
def parseMapping : List String → Option (List (String × String))
  | [] => some []
  | l :: rest =>
    match parseMappingLine l, parseMapping rest with
    | some kv, some m => some (kv :: m)
    | _, _ => none

/-- Modelled from the spec: the note parser's frontmatter/body phase (spec
section 4.1), parameterised by the mapping parser applied to the extracted
block.  The failure policy is the spec's soft failure: a block that exists but
does not parse into a mapping yields the empty frontmatter mapping, never an
error. -/
def parseWith (pm : List String → Option (List (String × String)))
    (text : String) : List (String × String) × List String :=
  match splitFrontmatter text with
  | (some block, body) => ((pm block).getD [], body)
  | (none, body) => ([], body)

/-- Modelled from the spec: `parse(rawText)`, returning the frontmatter
mapping and the body lines.  (Tag extraction is a separate scan of the raw
text and is not exercised by the parser claims.) -/
def parse (text : String) : List (String × String) × List String :=
  parseWith parseMapping text

/-- Modelled from the spec: the vault traversal constructing one `Note` per
discovered note file (given as `(subpath, raw text)` pairs), with the tag scan
and the triage condition of the missing module as parameters. -/
def vaultNotes (mkTags : String → List String)
    (mkTriage : List (String × String) → Bool)
    (files : List (String × String)) : List Note :=
  files.map fun f =>
    let p := parse f.2
    { subpath := f.1
      frontmatter := p.1
      tags := mkTags f.2
      lines := p.2
      awaiting_triage := mkTriage p.1 }

/-! ### Concrete inputs used by the witnesses -/

/-- A root-level structural error (instance path empty). -/
def eRoot : VError := ⟨[], "additionalProperties", true⟩

/-- A field-specific error on the `status` member (instance path depth 1). -/
def eStatus : VError := ⟨["status"], "enum", false⟩

/-- A note whose frontmatter the example validator rejects. -/
def noteInvalid : Note :=
  ⟨"notes/x.md", [("status", "maybe")], [], ["body"], false⟩

/-- Example note `a/x.md`, tagged `learn/anki` and `todo`. -/
def noteAX : Note :=
  ⟨"a/x.md", [], ["learn/anki", "todo"], ["Remember the #todo item"], false⟩

/-- Example note `b/x.md`, tagged `learn/anki` and `todo/now`. -/
def noteBX : Note :=
  ⟨"b/x.md", [], ["learn/anki", "todo/now"], ["check #todo/now soon"], false⟩

/-- The two-note example vault of the spec's concrete scenarios. -/
def exampleNotes : List Note := [noteAX, noteBX]

/-- A raw note text whose frontmatter fence exists but does not parse as a
mapping. -/
def malformedText : String := "---\nnot a mapping\n---\nbody line"

/-- A note marked awaiting triage, with frontmatter the example validator
would reject. -/
def noteTriage : Note :=
  ⟨"triage.md", [("status", "maybe")], [], [], true⟩

/-! ### Helper lemmas -/

/-- Filtering a list first cannot change a `filterMap` whose function already
drops every element the filter drops. -/
theorem filterMap_filter_eq_filterMap {α β : Type} (f : α → Option β)
    (p : α → Bool) (h : ∀ a, p a = false → f a = none) (l : List α) :
    (l.filter p).filterMap f = l.filterMap f := by
  induction l with
  | nil => rfl
  | cons a l ih =>
    cases hp : p a with
    | true => simp [List.filter_cons, hp, List.filterMap_cons, ih]
    | false => simp [List.filter_cons, hp, List.filterMap_cons, h a hp, ih]

/-- Under the relevance order, an error can only be `≤` another when its
instance path is at least as deep: the leading key component is the negated
path depth. -/
theorem relLE_path_le {a b : VError} (h : relLE a b) :
    b.path.length ≤ a.path.length := by
  have h' := h
  unfold relLE relevance at h'
  rw [Prod.Lex.le_iff] at h'
  rcases h' with h' | ⟨h', _⟩
  · simp only [toLex] at h'
    omega
  · simp only [Equiv.refl_apply] at h'
    omega

/-- Each note's tag set contributes `1` to a tag's `Counter` entry exactly
when the set contains the tag, so the total count is the number of such
notes. -/
theorem count_tagOccurrences (t : String) :
    ∀ notes : List Note, (∀ n, n ∈ notes → n.tags.Nodup) →
      (tagOccurrences notes).count t
        = (notes.filter fun n => decide (t ∈ n.tags)).length
  | [], _ => rfl
  | n :: l, h => by
    have hn : n.tags.Nodup := h n (List.mem_cons_self n l)
    have ih := count_tagOccurrences t l fun m hm => h m (List.mem_cons_of_mem n hm)
    simp only [tagOccurrences] at ih ⊢
    rw [List.flatMap_cons, List.count_append, ih, List.filter_cons]
    by_cases ht : t ∈ n.tags
    · rw [List.count_eq_one_of_mem hn ht]
      simp [ht, Nat.add_comm]
    · rw [List.count_eq_zero_of_not_mem ht]
      simp [ht]

/-! ### Claim theorems -/

/-- Claim C2: if the schema document fails its own meta-schema check,
`validate_frontmatter` fails with the schema-invalid error before any note is
enumerated or validated — the result is the same for every note list and for
every validator error function, so no note's frontmatter is ever passed to
the validator. -/
theorem C2_invalid_schema_fails_before_validation {Schema : Type}
    (check_schema : Schema → Bool)
    (iter_errors iter_errors₂ : Schema → List (String × String) → List VError)
    (schema : Schema) (notes notes₂ : List Note)
    (h : check_schema schema = false) :
    validate_frontmatter check_schema iter_errors (some schema) notes
        = Except.error VfFailure.invalidSchema ∧
      validate_frontmatter check_schema iter_errors (some schema) notes
        = validate_frontmatter check_schema iter_errors₂ (some schema) notes₂ := by
  constructor <;> simp [validate_frontmatter, h]

/-- Witness for C2 at a concrete always-failing schema check: the command
aborts with the schema-invalid failure whatever the notes and whatever the
validator. -/
theorem C2_invalid_schema_witness :
    ((fun _ : Unit => false) () = false) ∧
      (validate_frontmatter (fun _ : Unit => false) (fun _ _ => []) (some ())
          [noteInvalid] = Except.error VfFailure.invalidSchema ∧
        validate_frontmatter (fun _ : Unit => false) (fun _ _ => []) (some ())
            [noteInvalid]
          = validate_frontmatter (fun _ : Unit => false) (fun _ _ => [eRoot])
              (some ()) []) :=
  ⟨rfl,
    C2_invalid_schema_fails_before_validation (fun _ : Unit => false)
      (fun _ _ => []) (fun _ _ => [eRoot]) () [noteInvalid] [] rfl⟩

/-- Claim C3: with no `schema.json` in the vault, `validate_frontmatter`
aborts with the not-found failure and produces no report — neither an
invalid-notes report nor the all-valid outcome. -/
theorem C3_missing_schema_aborts {Schema : Type} (check_schema : Schema → Bool)
    (iter_errors : Schema → List (String × String) → List VError)
    (notes : List Note) :
    validate_frontmatter check_schema iter_errors none notes
        = Except.error VfFailure.schemaNotFound ∧
      ∀ entries, validate_frontmatter check_schema iter_errors none notes
        ≠ Except.ok entries := by
  refine ⟨rfl, ?_⟩
  intro entries h
  exact Except.noConfusion h

/-- Witness for C3 at a concrete vault with notes but no schema file. -/
theorem C3_missing_schema_witness :
    validate_frontmatter (fun _ : Unit => true) (fun _ _ => [eRoot]) none
        [noteInvalid] = Except.error VfFailure.schemaNotFound :=
  (C3_missing_schema_aborts (fun _ : Unit => true) (fun _ _ => [eRoot])
    [noteInvalid]).1

/-- Claim C8: `validate_frontmatter` skips every note whose
`awaiting_triage()` is true before validating it, so the report is the one
computed on the triage-free notes alone — a triage-pending note contributes
no entry regardless of its frontmatter. -/
theorem C8_triage_notes_invisible {Schema : Type} (check_schema : Schema → Bool)
    (iter_errors : Schema → List (String × String) → List VError)
    (schemaFile : Option Schema) (notes : List Note) :
    validate_frontmatter check_schema iter_errors schemaFile notes
      = validate_frontmatter check_schema iter_errors schemaFile
          (notes.filter fun n => !n.awaiting_triage) := by
  cases schemaFile with
  | none => rfl
  | some schema =>
    by_cases h : check_schema schema = true
    · simp only [validate_frontmatter, h, if_true]
      rw [filterMap_filter_eq_filterMap]
      intro n hn
      have hn' : n.awaiting_triage = true := by
        revert hn
        cases n.awaiting_triage <;> simp
      simp [noteReportEntry, hn']
    · simp [validate_frontmatter, h]

/-- Witness for C8 at a concrete vault holding a triage-pending note with
invalid frontmatter next to a valid note: the report equals the one on the
filtered notes. -/
theorem C8_triage_notes_witness :
    validate_frontmatter (fun _ : Unit => true) (fun _ fm => if fm.isEmpty then [] else [eStatus])
        (some ()) [noteTriage, noteAX]
      = validate_frontmatter (fun _ : Unit => true) (fun _ fm => if fm.isEmpty then [] else [eStatus])
          (some ()) ([noteTriage, noteAX].filter fun n => !n.awaiting_triage) :=
  C8_triage_notes_invisible (fun _ : Unit => true)
    (fun _ fm => if fm.isEmpty then [] else [eStatus]) (some ())
    [noteTriage, noteAX]

/-- Claim C4: the `anki` command prints a note's subpath exactly when the
note's tag set contains the exact string `learn/anki`; with distinct
subpaths, two notes both carrying the tag are both printed. -/
theorem C4_anki_exact_tag (notes : List Note) (n : Note)
    (hnd : (notes.map Note.subpath).Nodup) (hn : n ∈ notes) :
    n.subpath ∈ anki notes ↔ "learn/anki" ∈ n.tags := by
  constructor
  · intro h
    rw [anki, List.mem_map] at h
    obtain ⟨m, hm, hms⟩ := h
    rw [List.mem_filter] at hm
    obtain ⟨hmn, hmt⟩ := hm
    have hmeq : m = n := List.inj_on_of_nodup_map hnd hmn hn hms
    subst hmeq
    exact of_decide_eq_true hmt
  · intro h
    rw [anki, List.mem_map]
    exact ⟨n, List.mem_filter.mpr ⟨hn, decide_eq_true h⟩, rfl⟩

/-- Witness for C4 on the spec's concrete scenario: `a/x.md` and `b/x.md`
both tagged `learn/anki` are both printed. -/
theorem C4_anki_witness :
    (exampleNotes.map Note.subpath).Nodup ∧ noteAX ∈ exampleNotes ∧
      "a/x.md" ∈ anki exampleNotes ∧ "b/x.md" ∈ anki exampleNotes :=
  ⟨by decide, by decide,
    (C4_anki_exact_tag exampleNotes noteAX (by decide) (by decide)).mpr
      (by decide),
    (C4_anki_exact_tag exampleNotes noteBX (by decide) (by decide)).mpr
      (by decide)⟩

/-- Claim C5: a subpath is a line of the "Notes with #todo tags" panel body
exactly when some note at that subpath has the exact tag `todo` or the exact
tag `todo/now`, and the panel lists each such subpath exactly once. -/
theorem C5_todo_panel_membership (notes : List Note) (s : String) :
    (s ∈ todoPanelLines notes ↔
        ∃ n, n ∈ notes ∧ n.subpath = s ∧
          ("todo" ∈ n.tags ∨ "todo/now" ∈ n.tags))
      ∧ (todoPanelLines notes).Nodup := by
  constructor
  · rw [todoPanelLines, (List.perm_insertionSort strLe _).mem_iff,
      wholeNoteTodoSubpaths, List.mem_dedup, List.mem_map]
    constructor
    · rintro ⟨n, hn, rfl⟩
      rw [List.mem_filter] at hn
      refine ⟨n, hn.1, rfl, ?_⟩
      have ht := hn.2
      rw [hasTodoTag, Bool.or_eq_true, decide_eq_true_eq, decide_eq_true_eq]
        at ht
      exact ht
    · rintro ⟨n, hn, rfl, ht⟩
      refine ⟨n, List.mem_filter.mpr ⟨hn, ?_⟩, rfl⟩
      rw [hasTodoTag, Bool.or_eq_true, decide_eq_true_eq, decide_eq_true_eq]
      exact ht
  · rw [todoPanelLines]
    exact ((List.perm_insertionSort strLe _).nodup_iff).mpr
      (List.nodup_dedup _)

/-- Witness for C5 on the two-note example vault: both subpaths are panel
lines, via the two tags `todo` and `todo/now`, and the panel has no
duplicates. -/
theorem C5_todo_panel_witness :
    "a/x.md" ∈ todoPanelLines exampleNotes ∧
      "b/x.md" ∈ todoPanelLines exampleNotes ∧
      (todoPanelLines exampleNotes).Nodup :=
  ⟨(C5_todo_panel_membership exampleNotes "a/x.md").1.mpr
      ⟨noteAX, by decide, rfl, Or.inl (by decide)⟩,
    (C5_todo_panel_membership exampleNotes "b/x.md").1.mpr
      ⟨noteBX, by decide, rfl, Or.inr (by decide)⟩,
    (C5_todo_panel_membership exampleNotes "a/x.md").2⟩

/-- Claim C6: the "Notes with #todo tags" panel body is the same for any two
permutations of the traversal: collecting into the set, then sorting, makes
the output independent of traversal order. -/
theorem C6_todo_panel_order_independent (notes₁ notes₂ : List Note)
    (h : notes₁.Perm notes₂) : todoPanel notes₁ = todoPanel notes₂ := by
  unfold todoPanel
  congr 1
  unfold todoPanelLines wholeNoteTodoSubpaths
  have hperm : ((notes₁.filter hasTodoTag).map Note.subpath).dedup.Perm
      ((notes₂.filter hasTodoTag).map Note.subpath).dedup :=
    ((h.filter hasTodoTag).map Note.subpath).dedup
  exact List.eq_of_perm_of_sorted
    (((List.perm_insertionSort strLe _).trans hperm).trans
      (List.perm_insertionSort strLe _).symm)
    (List.sorted_insertionSort strLe _)
    (List.sorted_insertionSort strLe _)

/-- Witness for C6 on the two-note example vault traversed in both orders. -/
theorem C6_todo_panel_witness :
    todoPanel [noteAX, noteBX] = todoPanel [noteBX, noteAX] :=
  C6_todo_panel_order_independent [noteAX, noteBX] [noteBX, noteAX]
    (List.Perm.swap noteBX noteAX [])

/-- Claim C9: in the `todo` command, a note (with distinct subpaths in the
vault) has a Tasks-table row exactly when some body line contains the
substring `#todo`; the row's panel holds exactly the note's matching lines in
their original order; and the substring test also accepts lines containing
`#todo/now` or `#todos`. -/
theorem C9_tasks_table_rows (notes : List Note) (n : Note)
    (hnd : (notes.map Note.subpath).Nodup) (hn : n ∈ notes) :
    ((∃ ts, (n.subpath, ts) ∈ tasksTable notes) ↔
        ∃ l, l ∈ n.lines ∧ "#todo".toList <:+: l.toList)
      ∧ (∀ ts, (n.subpath, ts) ∈ tasksTable notes → ts = taskLines n)
      ∧ "#todo".toList <:+: "see the #todo/now list".toList
      ∧ "#todo".toList <:+: "all my #todos".toList := by
  have extract : ∀ ts, (n.subpath, ts) ∈ tasksTable notes →
      ts = taskLines n ∧ ¬(taskLines n).isEmpty = true := by
    intro ts hmem
    rw [tasksTable, List.mem_filterMap] at hmem
    obtain ⟨m, hm, hf⟩ := hmem
    by_cases he : (taskLines m).isEmpty = true
    · rw [if_pos he] at hf
      exact absurd hf (by simp)
    · rw [if_neg he] at hf
      injection hf with hf
      rw [Prod.mk.injEq] at hf
      have hmeq : m = n := List.inj_on_of_nodup_map hnd hm hn hf.1
      subst hmeq
      exact ⟨hf.2.symm, he⟩
  refine ⟨⟨?_, ?_⟩, fun ts h => (extract ts h).1, by decide, by decide⟩
  · rintro ⟨ts, hmem⟩
    have he := (extract ts hmem).2
    cases htl : taskLines n with
    | nil => rw [htl] at he; exact absurd rfl he
    | cons l rest =>
      have hl : l ∈ taskLines n := htl ▸ List.mem_cons_self l rest
      rw [taskLines, List.mem_filter] at hl
      exact ⟨l, hl.1, of_decide_eq_true hl.2⟩
  · rintro ⟨l, hl, hinf⟩
    have hl' : l ∈ taskLines n :=
      List.mem_filter.mpr ⟨hl, decide_eq_true hinf⟩
    have hne : ¬(taskLines n).isEmpty = true := by
      rw [List.isEmpty_iff]
      exact List.ne_nil_of_mem hl'
    exact ⟨taskLines n,
      List.mem_filterMap.mpr ⟨n, hn, by rw [if_neg hne]⟩⟩

/-- Witness for C9 on the example vault: `a/x.md` has a Tasks row because its
body line mentions `#todo`. -/
theorem C9_tasks_table_witness :
    (exampleNotes.map Note.subpath).Nodup ∧ noteAX ∈ exampleNotes ∧
      ∃ ts, ("a/x.md", ts) ∈ tasksTable exampleNotes :=
  ⟨by decide, by decide,
    (C9_tasks_table_rows exampleNotes noteAX (by decide) (by decide)).1.mpr
      ⟨"Remember the #todo item", by decide, by decide⟩⟩

/-- Claim C10: every row of the `tags` table reports, for its tag, the number
of notes whose tag set contains that tag (each note counts once, via its tag
set), and the rows are in non-increasing order of count. -/
theorem C10_tag_counts (notes : List Note)
    (h : ∀ n, n ∈ notes → n.tags.Nodup) :
    (∀ t c, (t, c) ∈ tagsTableRows notes →
        c = (notes.filter fun n => decide (t ∈ n.tags)).length)
      ∧ (tagsTableRows notes).Sorted countGE := by
  constructor
  · intro t c hmem
    rw [tagsTableRows, (List.perm_insertionSort countGE _).mem_iff, tagRows,
      List.mem_map] at hmem
    obtain ⟨u, hu, heq⟩ := hmem
    rw [Prod.mk.injEq] at heq
    obtain ⟨hut, huc⟩ := heq
    subst hut
    rw [← huc]
    exact count_tagOccurrences u notes h
  · exact List.sorted_insertionSort countGE _

/-- Witness for C10 on the example vault (all tag sets duplicate-free). -/
theorem C10_tag_counts_witness :
    (∀ n, n ∈ exampleNotes → n.tags.Nodup) ∧
      ((∀ t c, (t, c) ∈ tagsTableRows exampleNotes →
          c = (exampleNotes.filter fun n => decide (t ∈ n.tags)).length)
        ∧ (tagsTableRows exampleNotes).Sorted countGE) :=
  ⟨by decide, C10_tag_counts exampleNotes (by decide)⟩

/-- Claim C1: every invalid-note entry of the `validate_frontmatter` report
carries its errors sorted by the relevance heuristic, and under that order an
error on a deeper instance path (a specific field error) never follows a
root-level structural one: if a later error has a non-empty path, so does
every earlier one. -/
theorem C1_errors_sorted_by_relevance {Schema : Type}
    (check_schema : Schema → Bool)
    (iter_errors : Schema → List (String × String) → List VError)
    (schemaFile : Option Schema) (notes : List Note)
    (entries : List (String × List VError)) (s : String) (errs : List VError)
    (hok : validate_frontmatter check_schema iter_errors schemaFile notes
      = Except.ok entries)
    (hmem : (s, errs) ∈ entries) :
    errs.Sorted relLE ∧
      ∀ i j (hi : i < errs.length) (hj : j < errs.length), i < j →
        (errs.get ⟨j, hj⟩).path ≠ [] → (errs.get ⟨i, hi⟩).path ≠ [] := by
  cases schemaFile with
  | none => exact absurd hok (by simp [validate_frontmatter])
  | some schema =>
    simp only [validate_frontmatter] at hok
    by_cases hcs : check_schema schema = true
    · rw [if_pos hcs] at hok
      injection hok with hok
      subst hok
      rw [List.mem_filterMap] at hmem
      obtain ⟨m, _, hf⟩ := hmem
      rw [noteReportEntry] at hf
      by_cases htr : m.awaiting_triage = true
      · rw [if_pos htr] at hf
        exact absurd hf (by simp)
      · rw [if_neg htr] at hf
        by_cases he :
            (sortErrors (iter_errors schema m.frontmatter)).isEmpty = true
        · rw [if_pos he] at hf
          exact absurd hf (by simp)
        · rw [if_neg he] at hf
          injection hf with hf
          rw [Prod.mk.injEq] at hf
          obtain ⟨-, herrs⟩ := hf
          subst herrs
          have hsorted :
              (sortErrors (iter_errors schema m.frontmatter)).Sorted relLE :=
            List.sorted_insertionSort relLE _
          constructor
          · exact hsorted
          · intro i j hi hj hij hjne hieq
            have hrel := hsorted.rel_get_of_lt
              (a := ⟨i, hi⟩) (b := ⟨j, hj⟩) (Fin.mk_lt_mk.mpr hij)
            have hlen := relLE_path_le hrel
            rw [hieq] at hlen
            simp only [List.length_nil, Nat.le_zero] at hlen
            exact hjne (List.length_eq_zero.mp hlen)
    · rw [if_neg hcs] at hok
      exact absurd hok (by simp)

/-- Witness for C1 at a concrete schema whose validator reports a root-level
structural error and a `status` field enum error: the report entry lists the
field error first. -/
theorem C1_errors_sorted_witness :
    validate_frontmatter (fun _ : Unit => true) (fun _ _ => [eRoot, eStatus])
        (some ()) [noteInvalid]
      = Except.ok [("notes/x.md", [eStatus, eRoot])] ∧
      (([eStatus, eRoot] : List VError).Sorted relLE ∧
        ∀ i j (hi : i < ([eStatus, eRoot] : List VError).length)
          (hj : j < ([eStatus, eRoot] : List VError).length), i < j →
          (([eStatus, eRoot] : List VError).get ⟨j, hj⟩).path ≠ [] →
          (([eStatus, eRoot] : List VError).get ⟨i, hi⟩).path ≠ []) :=
  ⟨rfl,
    C1_errors_sorted_by_relevance (fun _ : Unit => true)
      (fun _ _ => [eRoot, eStatus]) (some ()) [noteInvalid]
      [("notes/x.md", [eStatus, eRoot])] "notes/x.md" [eStatus, eRoot]
      rfl (by decide)⟩

/-- Claim C7: the note parser fails softly — whenever the frontmatter fenced
block exists but its content does not parse into a mapping (for any mapping
parser), `parse` returns the empty frontmatter mapping with the body intact,
and the vault traversal still constructs one note per readable file. -/
theorem C7_parser_soft_failure
    (pm : List String → Option (List (String × String))) (text : String)
    (block body : List String)
    (hblock : splitFrontmatter text = (some block, body))
    (hfail : pm block = none) :
    parseWith pm text = ([], body) ∧
      ∀ (mkTags : String → List String)
        (mkTriage : List (String × String) → Bool)
        (files : List (String × String)),
        (vaultNotes mkTags mkTriage files).length = files.length := by
  constructor
  · rw [parseWith, hblock]
    show ((pm block).getD [], body) = ([], body)
    rw [hfail]
    rfl
  · intro _ _ files
    simp [vaultNotes]

/-- Witness for C7 on a concrete note text whose fence exists but whose block
is not a mapping: the parse yields empty frontmatter and the untouched body,
and a one-file vault still yields one note. -/
theorem C7_parser_witness :
    splitFrontmatter malformedText = (some ["not a mapping"], ["body line"]) ∧
      parseMapping ["not a mapping"] = none ∧
      parseWith parseMapping malformedText = ([], ["body line"]) ∧
      (vaultNotes (fun _ => []) (fun _ => false)
        [("a.md", malformedText)]).length = 1 :=
  ⟨rfl, rfl,
    (C7_parser_soft_failure parseMapping malformedText ["not a mapping"]
      ["body line"] rfl rfl).1,
    (C7_parser_soft_failure parseMapping malformedText ["not a mapping"]
      ["body line"] rfl rfl).2 (fun _ => []) (fun _ => false)
      [("a.md", malformedText)]⟩

end Obsidiana
